import Mathlib

/-!
# mystrom2mqtt: command relay and report poller

A shallow embedding of `mystrom2mqtt.go`.  Side effects (log lines, calls of
`http.Get`, MQTT publishes) are recorded as a trace of `Event`s; the answers of
the network are an explicit parameter (`World`).  An HTTP call of the command
relay is a call of `http.Get`: the trace records the call and its URL, and the
package `net/http`, which is not part of the program, decides what is sent.

Go strings are byte strings.  Topics and URLs are modelled as Lean `String`s
(lists of characters); the only separator the program splits on is the ASCII
character `/`, for which splitting by bytes and by characters agree on UTF-8
text.  Message payloads and report bodies are byte lists.
-/

namespace Mystrom2mqtt

/-! ## Go standard library: `strings.TrimPrefix`, `strings.Split` -/

/-- Go `strings.HasPrefix(s, pre)`. -/
def stringsHasPrefix (s pre : String) : Bool :=
  pre.data.isPrefixOf s.data

/-- Go `strings.TrimPrefix(s, pre)`: `s` without the leading `pre` when `s`
starts with it, `s` unchanged otherwise. -/
def stringsTrimPrefix (s pre : String) : String :=
  if stringsHasPrefix s pre then String.mk (s.data.drop pre.data.length) else s

/-- Scanning loop of Go `strings.Split` for a non-empty separator: `skip` counts
the characters of an already matched separator still to be passed over, `cur` is
the current segment, reversed. -/
def splitAux (sep : List Char) : List Char → Nat → List Char → List (List Char)
  | [], _, cur => [cur.reverse]
  | _ :: cs, skip + 1, cur => splitAux sep cs skip cur
  | c :: cs, 0, cur =>
    if sep.isPrefixOf (c :: cs) then cur.reverse :: splitAux sep cs (sep.length - 1) []
    else splitAux sep cs 0 (c :: cur)

/-- Go `strings.Split(s, sep)`: the segments of `s` between the leftmost
non-overlapping occurrences of `sep`; with an empty `sep` the string is cut
into its characters. -/
def stringsSplit (s sep : String) : List String :=
  if sep.data = [] then s.data.map (fun c => String.mk [c])
  else (splitAux sep.data s.data 0 []).map String.mk

/-! ## Data model -/

/-- A byte sequence (`[]byte`). -/
abbrev Bytes := List UInt8

/-- An inbound MQTT message: `m.Topic()` and `m.Payload()`. -/
structure Message where
  topic : String
  payload : Bytes
deriving DecidableEq, Repr

/-- Error values the program produces or receives. -/
inductive GoError where
  /-- The error returned by `http.Get`, `http.NewRequest` or
  `http.DefaultClient.Do` (malformed URL, network failure, timeout). -/
  | request (msg : String)
  /-- The error of `fmt.Errorf("unexpected HTTP status: got %v, want %v", ...)`. -/
  | unexpectedStatus (status : String) (want : Nat)
  /-- The error returned by `ioutil.ReadAll(resp.Body)`. -/
  | readBody (msg : String)
deriving DecidableEq, Repr

/-- Outcome of one HTTP GET as seen by the program. -/
inductive HttpOutcome where
  /-- The call returned `err != nil`. -/
  | failed (err : String)
  /-- The call returned a response with `resp.StatusCode`, `resp.Status` and a
  body whose complete read gives bytes or an error. -/
  | answered (statusCode : Nat) (status : String) (body : Except String Bytes)

/-- The network: what a GET of a given URL returns. -/
abbrev World := String → HttpOutcome

/-- Observable effects of the program. -/
inductive Event where
  /-- Line 34: `log.Printf("mqtt: %s: %q", m.Topic(), string(m.Payload()))`. -/
  | logMessage (topic : String) (payload : Bytes)
  /-- Line 37: `log.Printf("parts = %q", parts)`. -/
  | logParts (parts : List String)
  /-- Line 53: `log.Printf("unknown switch: %q", swtch)`. -/
  | logUnknownSwitch (swtch : String)
  /-- Line 55: the call `http.Get(u)`, with the URL it is given.  What the
  package `net/http` does with that URL is the answer of the `World`. -/
  | httpGet (url : String)
  /-- Lines 57 and 133: `log.Print(err)`. -/
  | logError (err : GoError)
  /-- Line 61: `log.Printf("unexpected HTTP status: %v", resp.Status)`. -/
  | logUnexpectedStatus (status : String)
  /-- Lines 136-140: `mqttClient.Publish(topic, qos, retained, payload)`. -/
  | publish (topic : String) (qos : Nat) (retained : Bool) (payload : Bytes)
  /-- Line 141: `log.Printf("published to MQTT")`. -/
  | logPublished
deriving DecidableEq, Repr

/-- The URLs of the `http.Get` calls of a trace, in order. -/
def httpCalls : List Event → List String
  | [] => []
  | Event.httpGet u :: es => u :: httpCalls es
  | _ :: es => httpCalls es

/-- The MQTT publishes of a trace, in order: topic, QoS, retained flag, payload. -/
def publishes : List Event → List (String × Nat × Bool × Bytes)
  | [] => []
  | Event.publish t q r p :: es => (t, q, r, p) :: publishes es
  | _ :: es => publishes es

/-- Default value of the flag `-mqtt_topic` (lines 28-30). -/
def defaultMqttPrefix : String := "github.com/stapelberg/mystrom2mqtt/"

/-! ## Command relay (`relayCommandHandler`, lines 33-63) -/

/-- Lines 42-46: `"on"` becomes `"1"`, `"off"` becomes `"0"`, anything else is kept. -/
def translateCommand (command : String) : String :=
  if command = "on" then "1"
  else if command = "off" then "0"
  else command

/-- Lines 48-54: the `switch swtch` statement.  Returns the value of `u` after
the switch and the log lines written by it. -/
def relayURL (swtch command : String) : String × List Event :=
  if swtch = "living" then
    ("http://myStrom-Switch-72AB38/relay?state=" ++ command, [])
  else
    ("", [Event.logUnknownSwitch swtch])

/-- Lines 55-62: `http.Get(u)` and the handling of its result. -/
def relayGet (world : World) (u : String) : List Event :=
  Event.httpGet u ::
    match world u with
    | HttpOutcome.failed err => [Event.logError (GoError.request err)]
    | HttpOutcome.answered code status _ =>
      if code ≠ 200 then [Event.logUnexpectedStatus status] else []

/-- The function `relayCommandHandler`: trace of one invocation on message `m`,
with `*mqttPrefix = mqttPrefix`. -/
def relayCommandHandler (mqttPrefix : String) (world : World) (m : Message) : List Event :=
  Event.logMessage m.topic m.payload ::
    match stringsSplit (stringsTrimPrefix m.topic (mqttPrefix ++ "cmd/relay/")) "/" with
    | [swtch, command] =>
      let r := relayURL swtch (translateCommand command)
      r.2 ++ relayGet world r.1
    | parts => [Event.logParts parts]

/-- Trace of the handler invoked on a sequence of messages, one after the other,
each with the network as it is at that time.  The handler reads no variable but
the flag `mqttPrefix` and writes none, so nothing is carried from one invocation
to the next. -/
def relayCommandHandlerAll (mqttPrefix : String) : List (World × Message) → List Event
  | [] => []
  | (world, m) :: rest =>
    relayCommandHandler mqttPrefix world m ++ relayCommandHandlerAll mqttPrefix rest

/-! ## Report poller (`getReportJSON`, lines 65-86; loop body, lines 131-141) -/

/-- The function `getReportJSON`: GET `http://<hostname>/report` (5 s timeout,
a timeout being an error of the request). -/
def getReportJSON (world : World) (hostname : String) : Except GoError Bytes :=
  match world ("http://" ++ hostname ++ "/report") with
  | HttpOutcome.failed err => Except.error (GoError.request err)
  | HttpOutcome.answered code status body =>
    if code ≠ 200 then Except.error (GoError.unexpectedStatus status 200)
    else
      match body with
      | Except.error err => Except.error (GoError.readBody err)
      | Except.ok b => Except.ok b

/-- The device table of `mystrom2mqtt` (lines 117-127): name and hostname. -/
def deviceTable : List (String × String) :=
  [ ("living", "myStrom-Switch-72AB38"),
    ("automation", "myStrom-Switch-A48E4C"),
    ("lea", "myStrom-Switch-72B600"),
    ("monitor", "myStrom-Switch-A46FD0"),
    ("midna", "myStrom-Switch-E33414"),
    ("pacna", "myStrom-Switch-A4849C"),
    ("portabel", "myStrom-Switch-7D6FDC"),
    ("solar", "myStrom-Switch-943DAC"),
    ("basislagercam", "10.11.0.109") ]

/-- One iteration of the polling loop of one device (lines 131-141). -/
def pollCycle (mqttPrefix : String) (world : World) (name hostname : String) : List Event :=
  match getReportJSON world hostname with
  | Except.error err => [Event.logError err]
  | Except.ok report =>
    [Event.publish (mqttPrefix ++ "report/" ++ name) 0 false report, Event.logPublished]

/-! ## Lemmas on splitting and trimming -/

theorem splitAux_slash_noSlash (s cur : List Char) (h : '/' ∉ s) :
    splitAux ['/'] s 0 cur = [cur.reverse ++ s] := by
  induction s generalizing cur with
  | nil => simp [splitAux]
  | cons c cs ih =>
    have hc : c ≠ '/' := fun e => h (by simp [e])
    have hcs : '/' ∉ cs := fun e => h (by simp [e])
    have hne : ¬ ('/' = c) := fun e => hc e.symm
    simp [splitAux, List.isPrefixOf, hne, ih _ hcs]

theorem splitAux_slash_append (n rest cur : List Char) (h : '/' ∉ n) :
    splitAux ['/'] (n ++ '/' :: rest) 0 cur
      = (cur.reverse ++ n) :: splitAux ['/'] rest 0 [] := by
  induction n generalizing cur with
  | nil => simp [splitAux, List.isPrefixOf]
  | cons c cs ih =>
    have hc : c ≠ '/' := fun e => h (by simp [e])
    have hcs : '/' ∉ cs := fun e => h (by simp [e])
    have hne : ¬ ('/' = c) := fun e => hc e.symm
    simp [splitAux, List.isPrefixOf, hne, ih _ hcs]

theorem stringsTrimPrefix_append (p r : String) : stringsTrimPrefix (p ++ r) p = r := by
  have hp : stringsHasPrefix (p ++ r) p = true := by
    simp [stringsHasPrefix]
  simp [stringsTrimPrefix, hp]

theorem stringsSplit_two (n a : String) (hn : '/' ∉ n.data) (ha : '/' ∉ a.data) :
    stringsSplit (n ++ "/" ++ a) "/" = [n, a] := by
  have hsep : ("/" : String).data = ['/'] := rfl
  have hd : (n ++ "/" ++ a).data = n.data ++ '/' :: a.data := by
    simp [String.data_append, hsep]
  simp [stringsSplit, hsep, hd, splitAux_slash_append _ _ _ hn, splitAux_slash_noSlash _ _ ha]

theorem parse_topic (P n a : String) (hn : '/' ∉ n.data) (ha : '/' ∉ a.data) :
    stringsSplit (stringsTrimPrefix (P ++ "cmd/relay/" ++ n ++ "/" ++ a) (P ++ "cmd/relay/")) "/"
      = [n, a] := by
  have e : P ++ "cmd/relay/" ++ n ++ "/" ++ a = (P ++ "cmd/relay/") ++ (n ++ "/" ++ a) := by
    apply String.ext; simp [String.data_append]
  rw [e, stringsTrimPrefix_append, stringsSplit_two n a hn ha]

/-! ## Lemmas on traces -/

theorem httpCalls_append (xs ys : List Event) :
    httpCalls (xs ++ ys) = httpCalls xs ++ httpCalls ys := by
  induction xs with
  | nil => rfl
  | cons e es ih => cases e <;> simp [httpCalls, ih]

theorem httpCalls_relayGet (world : World) (u : String) :
    httpCalls (relayGet world u) = [u] := by
  unfold relayGet
  cases world u with
  | failed err => simp [httpCalls]
  | answered code status body =>
    by_cases hc : code = 200 <;> simp [httpCalls, hc]

theorem httpCalls_relayURL (swtch command : String) :
    httpCalls (relayURL swtch command).2 = [] := by
  unfold relayURL
  by_cases h : swtch = "living" <;> simp [h, httpCalls]

theorem httpCalls_logMessage (t : String) (p : Bytes) (es : List Event) :
    httpCalls (Event.logMessage t p :: es) = httpCalls es := rfl

/-- Trace of the handler on a topic that follows the command grammar. -/
theorem relayCommandHandler_wellFormed (P : String) (world : World) (n a : String)
    (payload : Bytes) (hn : '/' ∉ n.data) (ha : '/' ∉ a.data) :
    relayCommandHandler P world ⟨P ++ "cmd/relay/" ++ n ++ "/" ++ a, payload⟩
      = Event.logMessage (P ++ "cmd/relay/" ++ n ++ "/" ++ a) payload ::
          ((relayURL n (translateCommand a)).2
            ++ relayGet world (relayURL n (translateCommand a)).1) := by
  simp only [relayCommandHandler, parse_topic P n a hn ha]

/-- HTTP calls of the handler on a topic that follows the command grammar. -/
theorem httpCalls_wellFormed (P : String) (world : World) (n a : String)
    (payload : Bytes) (hn : '/' ∉ n.data) (ha : '/' ∉ a.data) :
    httpCalls (relayCommandHandler P world ⟨P ++ "cmd/relay/" ++ n ++ "/" ++ a, payload⟩)
      = [(relayURL n (translateCommand a)).1] := by
  rw [relayCommandHandler_wellFormed P world n a payload hn ha]
  simp only [httpCalls_logMessage, httpCalls_append, httpCalls_relayURL, httpCalls_relayGet,
    List.nil_append]

/-- Every invocation of the handler calls `http.Get` at most once. -/
theorem httpCalls_length_le_one (P : String) (world : World) (m : Message) :
    (httpCalls (relayCommandHandler P world m)).length ≤ 1 := by
  unfold relayCommandHandler
  split
  · simp only [httpCalls_logMessage, httpCalls_append, httpCalls_relayURL, httpCalls_relayGet,
      List.nil_append, List.length_cons, List.length_nil, Nat.le_refl, zero_add]
  · simp [httpCalls]

theorem topic_literal_eq (P lit n a : String)
    (h : lit.data = ("cmd/relay/" : String).data ++ n.data ++ ("/" : String).data ++ a.data) :
    P ++ lit = P ++ "cmd/relay/" ++ n ++ "/" ++ a := by
  apply String.ext
  simp [String.data_append, h]

theorem topic_on_eq (P n : String) :
    P ++ "cmd/relay/" ++ n ++ "/on" = P ++ "cmd/relay/" ++ n ++ "/" ++ "on" := by
  apply String.ext
  have e : ("/on" : String).data = ("/" : String).data ++ ("on" : String).data := rfl
  simp [String.data_append, e]

theorem topic_living_eq (P a : String) :
    P ++ "cmd/relay/living/" ++ a = P ++ "cmd/relay/" ++ "living" ++ "/" ++ a := by
  apply String.ext
  have e : ("cmd/relay/living/" : String).data
      = ("cmd/relay/" : String).data ++ ("living" : String).data ++ ("/" : String).data := rfl
  simp [String.data_append, e]

/-! ## Command relay: parsing -/

/-- C4: for every prefix `P` and every device name `n` and action `a` without
`/`, stripping `P + "cmd/relay/"` from `P + "cmd/relay/" + n + "/" + a` and
splitting the remainder on `/` gives exactly the two segments `n` and `a`. -/
theorem relay_parse_roundtrip (P n a : String) (hn : '/' ∉ n.data) (ha : '/' ∉ a.data) :
    stringsSplit (stringsTrimPrefix (P ++ "cmd/relay/" ++ n ++ "/" ++ a) (P ++ "cmd/relay/")) "/"
      = [n, a] :=
  parse_topic P n a hn ha

/-- C4 at the default prefix, device `living`, action `on`. -/
theorem relay_parse_roundtrip_witness :
    '/' ∉ ("living" : String).data ∧ '/' ∉ ("on" : String).data ∧
    stringsSplit (stringsTrimPrefix (defaultMqttPrefix ++ "cmd/relay/" ++ "living" ++ "/" ++ "on")
      (defaultMqttPrefix ++ "cmd/relay/")) "/" = ["living", "on"] :=
  ⟨by decide, by decide,
    relay_parse_roundtrip defaultMqttPrefix "living" "on" (by decide) (by decide)⟩

/-- C5: when the remainder of the topic after stripping `prefix + "cmd/relay/"`
does not split on `/` into exactly two segments, the handler logs the message
and the segments and stops: its trace has no HTTP call. -/
theorem relay_malformed_discarded (P : String) (world : World) (topic : String)
    (payload : Bytes)
    (h : (stringsSplit (stringsTrimPrefix topic (P ++ "cmd/relay/")) "/").length ≠ 2) :
    relayCommandHandler P world ⟨topic, payload⟩
      = [Event.logMessage topic payload,
         Event.logParts (stringsSplit (stringsTrimPrefix topic (P ++ "cmd/relay/")) "/")]
    ∧ httpCalls (relayCommandHandler P world ⟨topic, payload⟩) = [] := by
  have key : relayCommandHandler P world ⟨topic, payload⟩
      = [Event.logMessage topic payload,
         Event.logParts (stringsSplit (stringsTrimPrefix topic (P ++ "cmd/relay/")) "/")] := by
    unfold relayCommandHandler
    split
    · rename_i swtch command heq
      simp only [heq] at h
      exact absurd rfl h
    · rfl
  exact ⟨key, by rw [key]; rfl⟩

/-- C5 at the default prefix, for the topics `cmd/relay/living` (no action
segment) and `cmd/relay/living/on/extra` (three segments). -/
theorem relay_malformed_discarded_witness :
    ((stringsSplit (stringsTrimPrefix (defaultMqttPrefix ++ "cmd/relay/living")
        (defaultMqttPrefix ++ "cmd/relay/")) "/").length ≠ 2 ∧
      httpCalls (relayCommandHandler defaultMqttPrefix (fun _ => HttpOutcome.failed "unreachable")
        ⟨defaultMqttPrefix ++ "cmd/relay/living", []⟩) = []) ∧
    ((stringsSplit (stringsTrimPrefix (defaultMqttPrefix ++ "cmd/relay/living/on/extra")
        (defaultMqttPrefix ++ "cmd/relay/")) "/").length ≠ 2 ∧
      httpCalls (relayCommandHandler defaultMqttPrefix (fun _ => HttpOutcome.failed "unreachable")
        ⟨defaultMqttPrefix ++ "cmd/relay/living/on/extra", []⟩) = []) :=
  ⟨⟨by decide,
    (relay_malformed_discarded defaultMqttPrefix (fun _ => HttpOutcome.failed "unreachable")
      (defaultMqttPrefix ++ "cmd/relay/living") [] (by decide)).2⟩,
   ⟨by decide,
    (relay_malformed_discarded defaultMqttPrefix (fun _ => HttpOutcome.failed "unreachable")
      (defaultMqttPrefix ++ "cmd/relay/living/on/extra") [] (by decide)).2⟩⟩

/-! ## Command relay: dispatch -/

/-- C3: for every action `a` without `/`, the handler on topic
`prefix + "cmd/relay/living/" + a` makes exactly one HTTP call, to
`http://myStrom-Switch-72AB38/relay?state=t` with `t = "1"` for `a = "on"`,
`t = "0"` for `a = "off"` and `t = a` otherwise. -/
theorem relay_living_action (P : String) (world : World) (a : String) (payload : Bytes)
    (ha : '/' ∉ a.data) :
    httpCalls (relayCommandHandler P world ⟨P ++ "cmd/relay/living/" ++ a, payload⟩)
      = ["http://myStrom-Switch-72AB38/relay?state="
          ++ (if a = "on" then "1" else if a = "off" then "0" else a)] := by
  rw [topic_living_eq, httpCalls_wellFormed P world "living" a payload (by decide) ha]
  rfl

/-- C3 at the default prefix for the actions `on`, `off` and `toggle`. -/
theorem relay_living_action_witness :
    ('/' ∉ ("on" : String).data ∧
      httpCalls (relayCommandHandler defaultMqttPrefix (fun _ => HttpOutcome.failed "unreachable")
        ⟨defaultMqttPrefix ++ "cmd/relay/living/" ++ "on", []⟩)
        = ["http://myStrom-Switch-72AB38/relay?state=1"]) ∧
    ('/' ∉ ("off" : String).data ∧
      httpCalls (relayCommandHandler defaultMqttPrefix (fun _ => HttpOutcome.failed "unreachable")
        ⟨defaultMqttPrefix ++ "cmd/relay/living/" ++ "off", []⟩)
        = ["http://myStrom-Switch-72AB38/relay?state=0"]) ∧
    ('/' ∉ ("toggle" : String).data ∧
      httpCalls (relayCommandHandler defaultMqttPrefix (fun _ => HttpOutcome.failed "unreachable")
        ⟨defaultMqttPrefix ++ "cmd/relay/living/" ++ "toggle", []⟩)
        = ["http://myStrom-Switch-72AB38/relay?state=toggle"]) :=
  ⟨⟨by decide, relay_living_action defaultMqttPrefix _ "on" [] (by decide)⟩,
   ⟨by decide, relay_living_action defaultMqttPrefix _ "off" [] (by decide)⟩,
   ⟨by decide, relay_living_action defaultMqttPrefix _ "toggle" [] (by decide)⟩⟩

/-- C1 (the code at the failing input): on topic
`prefix + "cmd/relay/doesnotexist/on"` the handler logs the unknown switch and
then goes on to line 55, calling `http.Get` with the empty URL. -/
theorem relay_unknown_device_http_get (P : String) (world : World) (payload : Bytes) :
    relayCommandHandler P world ⟨P ++ "cmd/relay/doesnotexist/on", payload⟩
      = Event.logMessage (P ++ "cmd/relay/doesnotexist/on") payload
          :: Event.logUnknownSwitch "doesnotexist" :: relayGet world ""
    ∧ httpCalls (relayCommandHandler P world ⟨P ++ "cmd/relay/doesnotexist/on", payload⟩)
      = [""] := by
  have e := topic_literal_eq P "cmd/relay/doesnotexist/on" "doesnotexist" "on" rfl
  constructor
  · rw [e,
      relayCommandHandler_wellFormed P world "doesnotexist" "on" payload (by decide) (by decide)]
    rfl
  · rw [e, httpCalls_wellFormed P world "doesnotexist" "on" payload (by decide) (by decide)]
    rfl

/-- C2 fails at `automation`: the name is in the device table, yet the handler
on `cmd/relay/automation/on` issues no GET to
`http://myStrom-Switch-A48E4C/relay?state=1`. -/
theorem relay_automation_not_relayed :
    ("automation", "myStrom-Switch-A48E4C") ∈ deviceTable ∧
    "http://myStrom-Switch-A48E4C/relay?state=1" ∉
      httpCalls (relayCommandHandler defaultMqttPrefix
        (fun _ => HttpOutcome.answered 200 "200 OK" (Except.ok []))
        ⟨defaultMqttPrefix ++ "cmd/relay/automation/on", []⟩) := by
  constructor
  · decide
  · rw [topic_literal_eq defaultMqttPrefix "cmd/relay/automation/on" "automation" "on" rfl,
      httpCalls_wellFormed defaultMqttPrefix _ "automation" "on" [] (by decide) (by decide)]
    decide

/-- C2 as amended: of the entries `(name, address)` of the device table, the
command relay accepts `living` only.  On topic
`prefix + "cmd/relay/" + name + "/on"` the handler issues exactly
`GET http://<address>/relay?state=1` when `name = "living"`, and issues no GET
to `http://<address>/relay?state=1` for the other eight names. -/
theorem relay_accepts_only_living (P : String) (world : World) (payload : Bytes)
    (name address : String) (h : (name, address) ∈ deviceTable) :
    (name = "living" →
      httpCalls (relayCommandHandler P world ⟨P ++ "cmd/relay/" ++ name ++ "/on", payload⟩)
        = ["http://" ++ address ++ "/relay?state=1"]) ∧
    (name ≠ "living" →
      "http://" ++ address ++ "/relay?state=1" ∉
        httpCalls (relayCommandHandler P world
          ⟨P ++ "cmd/relay/" ++ name ++ "/on", payload⟩)) := by
  simp only [deviceTable, List.mem_cons, Prod.mk.injEq, List.mem_nil_iff, or_false] at h
  rcases h with h | h | h | h | h | h | h | h | h <;>
    (obtain ⟨hn, hadr⟩ := h
     subst hn hadr
     rw [topic_on_eq, httpCalls_wellFormed P world _ "on" payload (by decide) (by decide)]
     decide)

/-- C2 as amended, at the entries `living` and `automation`. -/
theorem relay_accepts_only_living_witness :
    (("living", "myStrom-Switch-72AB38") ∈ deviceTable ∧
      httpCalls (relayCommandHandler defaultMqttPrefix (fun _ => HttpOutcome.failed "unreachable")
        ⟨defaultMqttPrefix ++ "cmd/relay/" ++ "living" ++ "/on", []⟩)
        = ["http://" ++ "myStrom-Switch-72AB38" ++ "/relay?state=1"]) ∧
    (("automation", "myStrom-Switch-A48E4C") ∈ deviceTable ∧
      "http://" ++ "myStrom-Switch-A48E4C" ++ "/relay?state=1" ∉
        httpCalls (relayCommandHandler defaultMqttPrefix
          (fun _ => HttpOutcome.failed "unreachable")
          ⟨defaultMqttPrefix ++ "cmd/relay/" ++ "automation" ++ "/on", []⟩)) :=
  ⟨⟨by decide,
    (relay_accepts_only_living defaultMqttPrefix _ [] "living" "myStrom-Switch-72AB38"
      (by decide)).1 rfl⟩,
   ⟨by decide,
    (relay_accepts_only_living defaultMqttPrefix _ [] "automation" "myStrom-Switch-A48E4C"
      (by decide)).2 (by decide)⟩⟩

/-- C8 (the code at a failing input): on topic
`prefix + "cmd/relay/automation/on"`, whose device name is registered with
address `myStrom-Switch-A48E4C`, the handler makes one HTTP call, and its URL is
the empty string, which is no relay-control endpoint
`http://<address>/relay?state=...`. -/
theorem relay_call_not_to_endpoint (P : String) (world : World) (payload : Bytes) :
    ("automation", "myStrom-Switch-A48E4C") ∈ deviceTable ∧
    httpCalls (relayCommandHandler P world ⟨P ++ "cmd/relay/automation/on", payload⟩) = [""] ∧
    ∀ address t : String, "" ≠ "http://" ++ address ++ "/relay?state=" ++ t := by
  refine ⟨by decide, ?_, ?_⟩
  · rw [topic_literal_eq P "cmd/relay/automation/on" "automation" "on" rfl,
      httpCalls_wellFormed P world "automation" "on" payload (by decide) (by decide)]
    rfl
  · intro address t h
    have hd := congrArg String.data h
    have e : ("http://" : String).data = 'h' :: ("ttp://" : String).data := rfl
    simp [String.data_append, e] at hd

/-- C9: the HTTP calls of the handler do not depend on the payload of the
message; the payload only appears in the first log line. -/
theorem relay_payload_independent (P : String) (world : World) (topic : String)
    (p1 p2 : Bytes) :
    httpCalls (relayCommandHandler P world ⟨topic, p1⟩)
      = httpCalls (relayCommandHandler P world ⟨topic, p2⟩) := by
  simp only [relayCommandHandler, httpCalls_logMessage]

/-- C10: handling the command `prefix + "cmd/relay/living/on"` twice in a row,
whatever the network answers each time, makes exactly two HTTP calls, both to
`http://myStrom-Switch-72AB38/relay?state=1`; the second invocation alone makes
the same call, and the trace of the two invocations is the trace of the first
followed by the trace of the second alone. -/
theorem relay_twice_two_calls (P : String) (w1 w2 : World) (p1 p2 : Bytes) :
    httpCalls (relayCommandHandlerAll P
        [(w1, ⟨P ++ "cmd/relay/living/on", p1⟩), (w2, ⟨P ++ "cmd/relay/living/on", p2⟩)])
      = ["http://myStrom-Switch-72AB38/relay?state=1",
         "http://myStrom-Switch-72AB38/relay?state=1"]
    ∧ httpCalls (relayCommandHandlerAll P [(w2, ⟨P ++ "cmd/relay/living/on", p2⟩)])
      = ["http://myStrom-Switch-72AB38/relay?state=1"]
    ∧ relayCommandHandlerAll P
        [(w1, ⟨P ++ "cmd/relay/living/on", p1⟩), (w2, ⟨P ++ "cmd/relay/living/on", p2⟩)]
      = relayCommandHandler P w1 ⟨P ++ "cmd/relay/living/on", p1⟩
          ++ relayCommandHandlerAll P [(w2, ⟨P ++ "cmd/relay/living/on", p2⟩)] := by
  have e := topic_literal_eq P "cmd/relay/living/on" "living" "on" rfl
  have h : ∀ (w : World) (p : Bytes),
      httpCalls (relayCommandHandler P w ⟨P ++ "cmd/relay/living/on", p⟩)
        = ["http://myStrom-Switch-72AB38/relay?state=1"] := by
    intro w p
    rw [e, httpCalls_wellFormed P w "living" "on" p (by decide) (by decide)]
    rfl
  refine ⟨?_, ?_, rfl⟩
  · simp only [relayCommandHandlerAll, httpCalls_append, h, List.append_nil]
    rfl
  · simp only [relayCommandHandlerAll, httpCalls_append, h, List.append_nil]

/-! ## Report poller -/

theorem getReportJSON_ok (world : World) (hostname status : String) (B : Bytes)
    (h : world ("http://" ++ hostname ++ "/report")
      = HttpOutcome.answered 200 status (Except.ok B)) :
    getReportJSON world hostname = Except.ok B := by
  simp [getReportJSON, h]

theorem getReportJSON_error (world : World) (hostname : String)
    (h : (∃ err, world ("http://" ++ hostname ++ "/report") = HttpOutcome.failed err) ∨
      (∃ code status body, code ≠ 200 ∧
        world ("http://" ++ hostname ++ "/report") = HttpOutcome.answered code status body)) :
    ∃ err, getReportJSON world hostname = Except.error err := by
  rcases h with ⟨err, h⟩ | ⟨code, status, body, hc, h⟩
  · exact ⟨GoError.request err, by simp [getReportJSON, h]⟩
  · exact ⟨GoError.unexpectedStatus status 200, by simp [getReportJSON, h, hc]⟩

/-- C6: for every entry `(name, address)` of the device table and every body
`B`, a poll cycle in which `GET http://<address>/report` answers with status 200
and body `B` makes exactly one MQTT publish: topic `prefix + "report/" + name`,
QoS 0, not retained, payload `B`. -/
theorem poll_ok_publishes_once (P : String) (world : World) (name address status : String)
    (B : Bytes) (_hd : (name, address) ∈ deviceTable)
    (h : world ("http://" ++ address ++ "/report")
      = HttpOutcome.answered 200 status (Except.ok B)) :
    publishes (pollCycle P world name address) = [(P ++ "report/" ++ name, 0, false, B)] := by
  simp only [pollCycle, getReportJSON_ok world address status B h]
  rfl

/-- C6 for the device `living` answering `200 OK` with body `{}`. -/
theorem poll_ok_publishes_once_witness :
    ("living", "myStrom-Switch-72AB38") ∈ deviceTable ∧
    (fun _ => HttpOutcome.answered 200 "200 OK" (Except.ok [123, 125]) : World)
        ("http://" ++ "myStrom-Switch-72AB38" ++ "/report")
      = HttpOutcome.answered 200 "200 OK" (Except.ok [123, 125]) ∧
    publishes (pollCycle defaultMqttPrefix
        (fun _ => HttpOutcome.answered 200 "200 OK" (Except.ok [123, 125]))
        "living" "myStrom-Switch-72AB38")
      = [(defaultMqttPrefix ++ "report/" ++ "living", 0, false, [123, 125])] :=
  ⟨by decide, rfl,
    poll_ok_publishes_once defaultMqttPrefix _ "living" "myStrom-Switch-72AB38" "200 OK"
      [123, 125] (by decide) rfl⟩

/-- C7: for every entry `(name, address)` of the device table, a poll cycle
whose request fails (network error, timeout) or is answered with a status
other than 200 makes `getReportJSON` return an error and publishes nothing,
whatever the response body. -/
theorem poll_failure_no_publish (P : String) (world : World) (name address : String)
    (_hd : (name, address) ∈ deviceTable)
    (h : (∃ err, world ("http://" ++ address ++ "/report") = HttpOutcome.failed err) ∨
      (∃ code status body, code ≠ 200 ∧
        world ("http://" ++ address ++ "/report") = HttpOutcome.answered code status body)) :
    (∃ err, getReportJSON world address = Except.error err) ∧
    publishes (pollCycle P world name address) = [] := by
  obtain ⟨err, he⟩ := getReportJSON_error world address h
  refine ⟨⟨err, he⟩, ?_⟩
  simp only [pollCycle, he]
  rfl

/-- C7 for the device `living`: a timeout, and a `404` answer with a body. -/
theorem poll_failure_no_publish_witness :
    (("living", "myStrom-Switch-72AB38") ∈ deviceTable ∧
      publishes (pollCycle defaultMqttPrefix (fun _ => HttpOutcome.failed "context deadline exceeded")
        "living" "myStrom-Switch-72AB38") = []) ∧
    (("living", "myStrom-Switch-72AB38") ∈ deviceTable ∧
      publishes (pollCycle defaultMqttPrefix
        (fun _ => HttpOutcome.answered 404 "404 Not Found" (Except.ok [123, 125]))
        "living" "myStrom-Switch-72AB38") = []) :=
  ⟨⟨by decide,
    (poll_failure_no_publish defaultMqttPrefix _ "living" "myStrom-Switch-72AB38" (by decide)
      (Or.inl ⟨"context deadline exceeded", rfl⟩)).2⟩,
   ⟨by decide,
    (poll_failure_no_publish defaultMqttPrefix _ "living" "myStrom-Switch-72AB38" (by decide)
      (Or.inr ⟨404, "404 Not Found", Except.ok [123, 125], by decide, rfl⟩)).2⟩⟩

end Mystrom2mqtt
